import Mathlib

/-!
Verification of the task-management backend's progress/status/reporting
engine (`backend/controllers/taskController.js`), as a shallow embedding.

Conventions of the embedding:
* A JS `Date` is a `DateTime`: a calendar-day index (`day`) plus the time
  of day (`ms`).  `setHours(0,0,0,0)` zeroes `ms`, `setHours(23,59,59,999)`
  sets it to the last millisecond, `isSameDay` of `date-fns` compares the
  `day` component, and `getTime` order is lexicographic on `(day, ms)`.
  Calendar arithmetic (year/month to first-day index and month length) is
  abstracted into explicit `monthFirst` / `daysInMonth` parameters.
* Mongoose documents are structures; an HTTP handler is a function from its
  request data to an `ApiResult`, whose non-`ok` constructors stand for the
  early `res.status(...)` returns.  A handler result of `ok t` means `t` is
  the document that gets persisted; any other result means nothing is saved.
* `Math.round((c / n) * 100)` on subtask counts is modelled as exact
  rational rounding half-up, `(200 * c + n) / (2 * n)` in `Nat` division.
* JS `x || d` on an optional string treats `undefined` and `""` as falsy
  (`orFalsy`); `x ?? d` is `Option.getD`.
-/

namespace TaskApp

/-- A JS `Date`: calendar-day index plus time of day in milliseconds. -/
structure DateTime where
  day : Int
  ms : Nat
deriving DecidableEq, Repr

/-- `d.setHours(0, 0, 0, 0)`: strip the time of day. -/
def setHours0 (d : DateTime) : DateTime := ⟨d.day, 0⟩

/-- `d.setHours(23, 59, 59, 999)`: last millisecond of the day. -/
def setHoursEnd (d : DateTime) : DateTime := ⟨d.day, 86399999⟩

/-- `a.getTime() <= b.getTime()` (`<=`/`>=` on JS dates): lexicographic. -/
def dtLe (a b : DateTime) : Bool :=
  decide (a.day < b.day) || (a.day == b.day && decide (a.ms ≤ b.ms))

/-- `isSameDay` of date-fns: same calendar day, time ignored. -/
def isSameDay (a b : DateTime) : Bool := a.day == b.day

/-- A subtask embedded in a day bucket of `task.days`. -/
structure SubTask where
  id : Nat
  description : String
  status : String
  hoursSpent : ℚ
  remarks : String
  completedAt : Option Nat := none
  createdAt : Option Nat := none
deriving DecidableEq, Repr

instance : Inhabited SubTask := ⟨⟨0, "", "", 0, "", none, none⟩⟩

/-- One entry of `task.days`: a date with its recorded subtasks. -/
structure DayBucket where
  date : DateTime
  subTasks : List SubTask
deriving DecidableEq, Repr

instance : Inhabited DayBucket := ⟨⟨⟨0, 0⟩, []⟩⟩

/-- An entry of the legacy flat `task.subTasks` list (used by `createTask`
seeding and `addSubTask`); it carries its own `date` instead of living in a
day bucket. -/
structure FlatSubTask where
  date : DateTime
  description : String
  status : String
  hoursSpent : ℚ
  remarks : String
  createdAt : Option Nat := none
deriving DecidableEq, Repr

/-- A task document.  User/company references are identifiers. -/
structure Task where
  title : String
  description : String
  assignedTo : Nat
  assignedBy : Nat
  company : Nat
  startDate : DateTime
  endDate : DateTime
  priority : String
  status : String
  progress : Nat
  days : List DayBucket
  subTasks : List FlatSubTask
  updatedAt : Nat := 0
deriving DecidableEq, Repr

/-- The request context the auth middleware puts on `req.user`. -/
structure ReqUser where
  id : Nat
  role : String
  company : Nat
deriving DecidableEq, Repr

/-- A handler's outcome: `ok` carries the document that is persisted and
returned; the other constructors are the early error responses (400, 401,
403, 404). -/
inductive ApiResult (α : Type) where
  | ok : α → ApiResult α
  | badRequest : String → ApiResult α
  | unauthorized : ApiResult α
  | forbidden : ApiResult α
  | notFound : String → ApiResult α
deriving DecidableEq, Repr

/-- JS `v || old` for an optional string: `undefined` and `""` are falsy. -/
def orFalsy (v : Option String) (old : String) : String :=
  match v with
  | none => old
  | some s => if s = "" then old else s

/-- JS `!v` for an optional string. -/
def falsyStr (v : Option String) : Bool :=
  match v with
  | none => true
  | some s => s == ""

/-- `Math.round((c / n) * 100)` as exact rational rounding half-up. -/
def jsRound100 (c n : Nat) : Nat := (200 * c + n) / (2 * n)

/-- `task.days.flatMap(day => day.subTasks)`: the flattened subtask list. -/
def allSubTasksOf (task : Task) : List SubTask :=
  task.days.flatMap (fun day => day.subTasks)

/-- `task.days.some(d => isSameDay(new Date(d.date), new Date(task.endDate)))`. -/
def hasFinalDayOf (task : Task) : Bool :=
  task.days.any (fun d => isSameDay d.date task.endDate)

/-- `updateTaskProgressAndStatus` (taskController.js:10-32): flatten the day
buckets; with no subtasks set `progress = 0`, `status = 'pending'` and stop
before the division; otherwise `progress` is the rounded completed
percentage and `status` is `'completed'` only when `progress` is 100 and
some day bucket falls on the task's end date. -/
def updateTaskProgressAndStatus (task : Task) : Task :=
  let allSubTasks := allSubTasksOf task
  if allSubTasks.length = 0 then
    { task with progress := 0, status := "pending" }
  else
    let completedCount := (allSubTasks.filter (fun st => st.status == "completed")).length
    let progress := jsRound100 completedCount allSubTasks.length
    let status :=
      if progress = 100 ∧ hasFinalDayOf task then "completed"
      else if progress > 0 then "in-progress"
      else "pending"
    { task with progress := progress, status := status }

/-- A record of `req.body.subTaskDetails` in `createTask`. -/
structure SeedRecord where
  date : DateTime
  description : String
deriving DecidableEq, Repr

/-- The request body of `createTask` (validated fields only). -/
structure CreateTaskBody where
  title : String
  description : String
  assignedTo : Nat
  startDate : DateTime
  endDate : DateTime
  priority : Option String
  subTaskDetails : List SeedRecord
deriving DecidableEq, Repr

/-- How `createTask` maps one `subTaskDetails` seed (taskController.js:91-97):
status is hard-coded to `'pending'`, hours to 0, remarks to `""`. -/
def seedToFlat (s : SeedRecord) : FlatSubTask :=
  { date := s.date, description := s.description, status := "pending",
    hoursSpent := 0, remarks := "" }

/-- The task document `createTask` (taskController.js:77-101) builds and
saves once the user/company checks have succeeded (`taskCompany` is the
resolved company id).  `Task.create` receives `subTasks: []` and no `days`
(schema default: empty); when `subTaskDetails` is a non-empty list its
seeds are pushed onto the flat `task.subTasks` list. -/
def createTaskDoc (creator : Nat) (taskCompany : Nat) (body : CreateTaskBody) : Task :=
  let task : Task :=
    { title := body.title, description := body.description,
      company := taskCompany, assignedTo := body.assignedTo,
      assignedBy := creator, startDate := body.startDate,
      endDate := body.endDate, priority := orFalsy body.priority "medium",
      status := "pending", progress := 0, days := [], subTasks := [] }
  if body.subTaskDetails.length > 0 then
    { task with subTasks := task.subTasks ++ body.subTaskDetails.map seedToFlat }
  else task

/-- The request body of `addSubTask`. -/
structure AddSubTaskBody where
  date : DateTime
  description : String
  status : Option String
  hoursSpent : Option ℚ
  remarks : Option String
deriving DecidableEq, Repr

/-- The new flat subtask `addSubTask` builds (taskController.js:194-201):
`status || 'pending'`, `hoursSpent || 0`, `remarks || ''`. -/
def newFlatSubTask (body : AddSubTaskBody) (now : Nat) : FlatSubTask :=
  { date := body.date, description := body.description,
    status := orFalsy body.status "pending",
    hoursSpent := body.hoursSpent.getD 0,
    remarks := orFalsy body.remarks "",
    createdAt := some now }

/-- `addSubTask` (taskController.js:178-215): staff may only touch their own
tasks; the new subtask is pushed onto the flat `task.subTasks` list (no
progress recomputation happens here). -/
def addSubTask (user : ReqUser) (task0 : Option Task) (body : AddSubTaskBody)
    (now : Nat) : ApiResult Task :=
  match task0 with
  | none => ApiResult.notFound "Task not found"
  | some task =>
    if user.role = "staff" ∧ task.assignedTo ≠ user.id then
      ApiResult.forbidden
    else
      ApiResult.ok { task with subTasks := task.subTasks ++ [newFlatSubTask body now] }

/-- The request body of `addSubTaskDay`; `date`/`description` may be absent. -/
structure AddSubTaskDayBody where
  date : Option DateTime
  description : Option String
  status : Option String
  hoursSpent : Option ℚ
  remarks : Option String
deriving DecidableEq, Repr

/-- The subtask `addSubTaskDay` pushes into a day bucket
(taskController.js:262-267): note `status || 'in-progress'`. -/
def newDaySubTask (body : AddSubTaskDayBody) (desc : String) (newId : Nat) : SubTask :=
  { id := newId, description := desc,
    hoursSpent := body.hoursSpent.getD 0,
    remarks := orFalsy body.remarks "",
    status := orFalsy body.status "in-progress" }

/-- Locate the first day bucket with the given (already normalized) date and
append there; if none exists push a fresh bucket at the end
(taskController.js:245-259). -/
def pushIntoDays (days : List DayBucket) (dayDate : DateTime) (st : SubTask) :
    List DayBucket :=
  match days with
  | [] => [{ date := dayDate, subTasks := [st] }]
  | b :: rest =>
    if b.date = dayDate then { b with subTasks := b.subTasks ++ [st] } :: rest
    else b :: pushIntoDays rest dayDate st

/-- `addSubTaskDay` (taskController.js:217-284): requires `date` and a
non-empty `description`, normalizes the date, appends the subtask into that
date's bucket and recomputes progress/status.  It performs no
role/ownership check on `user` at all.  `newId` stands for the `_id`
mongoose assigns to the pushed subdocument. -/
def addSubTaskDay (_user : ReqUser) (task0 : Option Task) (body : AddSubTaskDayBody)
    (newId : Nat) : ApiResult Task :=
  match body.date with
  | none => ApiResult.badRequest "Date and description are required"
  | some date0 =>
    if falsyStr body.description then
      ApiResult.badRequest "Date and description are required"
    else
      match task0 with
      | none => ApiResult.notFound "Task not found"
      | some task =>
        let dayDate := setHours0 date0
        let st := newDaySubTask body (body.description.getD "") newId
        ApiResult.ok (updateTaskProgressAndStatus
          { task with days := pushIntoDays task.days dayDate st })

/-- The removal loop of `deleteSubtask` (taskController.js:298-305): filter
each bucket in order, stop at the first bucket whose length changed; `none`
when no bucket contains the identifier. -/
def removeFromDays (days : List DayBucket) (sid : Nat) : Option (List DayBucket) :=
  match days with
  | [] => none
  | day :: rest =>
    let filtered := day.subTasks.filter (fun st => st.id != sid)
    if filtered.length ≠ day.subTasks.length then
      some ({ day with subTasks := filtered } :: rest)
    else
      match removeFromDays rest sid with
      | none => none
      | some rest' => some (day :: rest')

/-- `deleteSubtask` (taskController.js:287-319): 401 without a user, 404
without the task, 404 with no recompute and no save when no bucket holds
the subtask; otherwise the task is recomputed and saved.  There is no
role/ownership check. -/
def deleteSubtask (user0 : Option ReqUser) (task0 : Option Task) (sid : Nat) :
    ApiResult Task :=
  match user0 with
  | none => ApiResult.unauthorized
  | some _ =>
    match task0 with
    | none => ApiResult.notFound "Task not found"
    | some task =>
      match removeFromDays task.days sid with
      | none => ApiResult.notFound "Subtask not found"
      | some days' =>
        ApiResult.ok (updateTaskProgressAndStatus { task with days := days' })

/-- The request body of `updateSubTask`. -/
structure UpdateSubTaskBody where
  status : Option String
  hoursSpent : Option ℚ
  remarks : Option String
  description : Option String
deriving DecidableEq, Repr

/-- The field updates `updateSubTask` applies to the found subtask
(taskController.js:581-588), in source order: `description`/`status` via
`||`, `hoursSpent`/`remarks` via `??`, and only then the
`completedAt` guard — which reads the status field it has just
overwritten. -/
def applySubTaskUpdate (body : UpdateSubTaskBody) (now : Nat) (st : SubTask) : SubTask :=
  let st1 : SubTask :=
    { st with
      description := orFalsy body.description st.description,
      status := orFalsy body.status st.status,
      hoursSpent := body.hoursSpent.getD st.hoursSpent,
      remarks := body.remarks.getD st.remarks }
  if body.status = some "completed" ∧ st1.status ≠ "completed" then
    { st1 with completedAt := some now }
  else st1

/-- Apply `f` to the first subtask with the given id; `none` if absent. -/
def updateFirstSubTask (sid : Nat) (f : SubTask → SubTask) (l : List SubTask) :
    Option (List SubTask) :=
  match l with
  | [] => none
  | st :: rest =>
    if st.id = sid then some (f st :: rest)
    else
      match updateFirstSubTask sid f rest with
      | none => none
      | some rest' => some (st :: rest')

/-- The `day.subTasks.id(subTaskId)` search of `updateSubTask` over the day
buckets, first match wins. -/
def updateInDays (sid : Nat) (f : SubTask → SubTask) (days : List DayBucket) :
    Option (List DayBucket) :=
  match days with
  | [] => none
  | day :: rest =>
    match updateFirstSubTask sid f day.subTasks with
    | some subs' => some ({ day with subTasks := subs' } :: rest)
    | none =>
      match updateInDays sid f rest with
      | none => none
      | some rest' => some (day :: rest')

/-- `updateSubTask` (taskController.js:553-605): 401 without a user, 404
without the task, 403 for a staff caller on a task not assigned to them,
404 when no bucket holds the subtask; otherwise the subtask is updated and
the task recomputed and saved. -/
def updateSubTask (user0 : Option ReqUser) (task0 : Option Task) (sid : Nat)
    (body : UpdateSubTaskBody) (now : Nat) : ApiResult Task :=
  match user0 with
  | none => ApiResult.unauthorized
  | some user =>
    match task0 with
    | none => ApiResult.notFound "Task not found"
    | some task =>
      if user.role = "staff" ∧ task.assignedTo ≠ user.id then
        ApiResult.forbidden
      else
        match updateInDays sid (applySubTaskUpdate body now) task.days with
        | none => ApiResult.notFound "Subtask not found"
        | some days' =>
          ApiResult.ok (updateTaskProgressAndStatus { task with days := days' })

/-- The slice of a stored user `updateTask` needs. -/
structure UserDoc where
  id : Nat
  company : Option Nat
deriving DecidableEq, Repr

/-- The request body of `updateTask`; absent fields are `undefined` and are
dropped from the update document. -/
structure UpdateTaskBody where
  title : Option String
  description : Option String
  assignedTo : Option Nat
  startDate : Option DateTime
  endDate : Option DateTime
  priority : Option String
  status : Option String
deriving DecidableEq, Repr

/-- The `findByIdAndUpdate` document of `updateTask`
(taskController.js:149-162): provided fields overwrite the stored ones
(mongoose drops `undefined` keys from the `$set`); `company` and
`updatedAt` are always written. -/
def applyTaskUpdate (task : Task) (body : UpdateTaskBody) (comp : Nat) (now : Nat) :
    Task :=
  { task with
    title := body.title.getD task.title,
    description := body.description.getD task.description,
    assignedTo := body.assignedTo.getD task.assignedTo,
    startDate := body.startDate.getD task.startDate,
    endDate := body.endDate.getD task.endDate,
    priority := body.priority.getD task.priority,
    company := comp,
    status := body.status.getD task.status,
    updatedAt := now }

/-- `updateTask` (taskController.js:121-174): 404 without the task, 403 for
a staff caller on a task not assigned to them; when `assignedTo` changes
the user is looked up (`findUser` stands for `User.findById`) and, for an
admin caller, the company is re-resolved to that user's company.  The body
— including a caller-supplied `status` — is then written verbatim. -/
def updateTask (findUser : Nat → Option UserDoc) (user : ReqUser)
    (task0 : Option Task) (body : UpdateTaskBody) (now : Nat) : ApiResult Task :=
  match task0 with
  | none => ApiResult.notFound "Task not found"
  | some task =>
    if user.role = "staff" ∧ task.assignedTo ≠ user.id then
      ApiResult.forbidden
    else
      match body.assignedTo with
      | none => ApiResult.ok (applyTaskUpdate task body task.company now)
      | some uid =>
        match findUser uid with
        | none => ApiResult.notFound "Assigned user not found"
        | some u =>
          if user.role = "admin" then
            match u.company with
            | none => ApiResult.badRequest "Assigned user does not belong to a company"
            | some c => ApiResult.ok (applyTaskUpdate task body c now)
          else ApiResult.ok (applyTaskUpdate task body task.company now)

/-- One entry of the per-task `daysWithStatus` tree `getReport` builds. -/
structure ReportDayEntry where
  date : DateTime
  subTasks : List SubTask
  totalHours : ℚ
  completedSubtasks : Nat
  totalSubtasks : Nat
  status : String
deriving DecidableEq, Repr

/-- The totals `calculateTaskStats` returns. -/
structure TaskStats where
  totalHours : ℚ
  completedSubtasks : Nat
  totalSubtasks : Nat
  daysWithStatus : List ReportDayEntry
deriving DecidableEq, Repr

/-- `getDayCompletionStatus` (taskController.js:769-788): a day's own status
from that day's subtasks alone. -/
def getDayCompletionStatus (day : DayBucket) : String :=
  let subTasks := day.subTasks
  if subTasks.length = 0 then "pending"
  else
    let allCompleted := subTasks.all (fun st => st.status == "completed")
    let anyInProgress := subTasks.any
      (fun st => st.status == "in-progress" || st.status == "pending")
    if allCompleted then "completed"
    else if anyInProgress || subTasks.length > 0 then "in-progress"
    else "pending"

/-- The `existingDaysMap` lookup of `calculateTaskStats`: buckets are keyed
by normalized date and `Map.set` keeps the last bucket written for a key,
hence the reversed search. -/
def lookupDayByKey (days : List DayBucket) (key : Int) : Option DayBucket :=
  days.reverse.find? (fun day => (setHours0 day.date).day == key)

/-- One report entry for calendar day `d`: the bucket's data when one
exists, otherwise the zeroed `'pending'` entry (taskController.js:826-862). -/
def mkDayEntry (d : Int) (found : Option DayBucket) : ReportDayEntry :=
  match found with
  | some day =>
    { date := ⟨d, 0⟩, subTasks := day.subTasks,
      totalHours := (day.subTasks.map (fun st => st.hoursSpent)).sum,
      completedSubtasks :=
        (day.subTasks.filter (fun st => st.status == "completed")).length,
      totalSubtasks := day.subTasks.length,
      status := getDayCompletionStatus day }
  | none =>
    { date := ⟨d, 0⟩, subTasks := [], totalHours := 0,
      completedSubtasks := 0, totalSubtasks := 0, status := "pending" }

/-- `calculateTaskStats` of `getReport` (taskController.js:791-872): walk
every calendar day of the requested month (`monthFirst` is the day index of
`new Date(year, month-1, 1)` and `daysInMonth` the month's length), keep
the days inside the task's `[startDate, endDate]` — start normalized to
midnight, end pushed to 23:59:59.999 — and build one entry per kept day. -/
def calculateTaskStats (monthFirst : Int) (daysInMonth : Nat) (task : Task) :
    TaskStats :=
  let taskStart := setHours0 task.startDate
  let taskEnd := setHoursEnd task.endDate
  let entries := (List.range daysInMonth).filterMap (fun (i : Nat) =>
    let currentDay : DateTime := ⟨monthFirst + (i : Int), 0⟩
    if dtLe taskStart currentDay && dtLe currentDay taskEnd then
      some (mkDayEntry currentDay.day (lookupDayByKey task.days currentDay.day))
    else none)
  { totalHours := (entries.map (fun e => e.totalHours)).sum,
    completedSubtasks := (entries.map (fun e => e.completedSubtasks)).sum,
    totalSubtasks := (entries.map (fun e => e.totalSubtasks)).sum,
    daysWithStatus := entries }

/-- Replace the element at index `i` (identity beyond the end), as JS
in-place mutation of `l[i]`. -/
def modifyAt {α : Type} (l : List α) (i : Nat) (f : α → α) : List α :=
  match l, i with
  | [], _ => []
  | a :: as, 0 => f a :: as
  | a :: as, n + 1 => a :: modifyAt as n f

/-- The day buckets after marking the `j`-th subtask of the `i`-th bucket
`'completed'`; dates, ordering and list lengths are untouched. -/
def completeDays (days : List DayBucket) (i j : Nat) : List DayBucket :=
  modifyAt days i (fun day =>
    { day with
      subTasks := (modifyAt day.subTasks j
        (fun st => { st with status := "completed" })) })

/-- Mark the `j`-th subtask of the `i`-th day bucket `'completed'`, leaving
everything else — including the bucket dates and list lengths — unchanged. -/
def completeSubAt (task : Task) (i j : Nat) : Task :=
  { task with days := completeDays task.days i j }

/-! ## Shared example documents -/

/-- A minimal task document used as the base of the concrete examples. -/
def baseTask : Task :=
  { title := "t", description := "", assignedTo := 1, assignedBy := 2, company := 3,
    startDate := ⟨0, 0⟩, endDate := ⟨2, 0⟩, priority := "medium", status := "pending",
    progress := 0, days := [], subTasks := [] }

/-! ## C1: the completion gate -/

/-- The computed `progress` of a task with at least one subtask. -/
theorem updateTPS_progress (task : Task)
    (h : ¬ (allSubTasksOf task).length = 0) :
    (updateTaskProgressAndStatus task).progress =
      jsRound100 ((allSubTasksOf task).filter (fun st => st.status == "completed")).length
        (allSubTasksOf task).length := by
  unfold updateTaskProgressAndStatus
  rw [if_neg h]

/-- The derived `status` of a task with at least one subtask. -/
theorem updateTPS_status (task : Task)
    (h : ¬ (allSubTasksOf task).length = 0) :
    (updateTaskProgressAndStatus task).status =
      (if jsRound100 ((allSubTasksOf task).filter
            (fun st => st.status == "completed")).length (allSubTasksOf task).length = 100
          ∧ hasFinalDayOf task = true then "completed"
        else if jsRound100 ((allSubTasksOf task).filter
            (fun st => st.status == "completed")).length (allSubTasksOf task).length > 0
          then "in-progress"
        else "pending") := by
  unfold updateTaskProgressAndStatus
  rw [if_neg h]

/-- C1: for a task whose day buckets flatten to a non-empty subtask list,
`updateTaskProgressAndStatus` assigns status `'completed'` iff the computed
progress is 100 and some day bucket's normalized date equals the task's
normalized `endDate`; in particular 100% completion without a bucket on the
end date yields a status other than `'completed'`. -/
theorem completion_requires_final_day (task : Task)
    (h : allSubTasksOf task ≠ []) :
    (updateTaskProgressAndStatus task).status = "completed" ↔
      ((updateTaskProgressAndStatus task).progress = 100 ∧
        hasFinalDayOf task = true) := by
  have hlen : ¬ (allSubTasksOf task).length = 0 := by
    simpa [List.length_eq_zero] using h
  rw [updateTPS_progress task hlen, updateTPS_status task hlen]
  set p := jsRound100 ((allSubTasksOf task).filter
    (fun st => st.status == "completed")).length (allSubTasksOf task).length with hp
  by_cases hc : p = 100 ∧ hasFinalDayOf task = true
  · rw [if_pos hc]
    exact ⟨fun _ => hc, fun _ => rfl⟩
  · rw [if_neg hc]
    constructor
    · intro habs
      exfalso
      by_cases h0 : p > 0
      · rw [if_pos h0] at habs
        exact absurd habs (by decide)
      · rw [if_neg h0] at habs
        exact absurd habs (by decide)
    · intro hcc
      exact absurd hcc hc

/-- All-completed single subtask on a bucket dated the task's end day. -/
def exC1 : Task :=
  { baseTask with
    endDate := ⟨2, 5⟩,
    days := [⟨⟨2, 0⟩, [⟨1, "a", "completed", 0, "", none, none⟩]⟩] }

/-- Witness for C1 at a concrete task: one completed subtask bucketed on the
end date gives status `'completed'`. -/
theorem completion_requires_final_day_witness :
    (updateTaskProgressAndStatus exC1).status = "completed" :=
  (completion_requires_final_day exC1 (by decide)).mpr ⟨by decide, by decide⟩

/-! ## C4: the zero-subtask early return -/

/-- C4: a task whose day buckets flatten to an empty subtask list takes the
early return of `updateTaskProgressAndStatus` — before the
`completedCount / totalCount` division is ever formed — and ends with
progress 0 and status `'pending'`. -/
theorem zero_subtasks_pending (task : Task)
    (h : allSubTasksOf task = []) :
    (updateTaskProgressAndStatus task).progress = 0 ∧
      (updateTaskProgressAndStatus task).status = "pending" := by
  unfold updateTaskProgressAndStatus
  rw [h]
  exact ⟨rfl, rfl⟩

/-- A task with one day bucket holding no subtasks. -/
def exC4 : Task := { baseTask with days := [⟨⟨0, 0⟩, []⟩] }

/-- Witness for C4 at a concrete task with an empty (but present) bucket. -/
theorem zero_subtasks_pending_witness :
    (updateTaskProgressAndStatus exC4).progress = 0 ∧
      (updateTaskProgressAndStatus exC4).status = "pending" :=
  zero_subtasks_pending exC4 (by decide)

/-! ## C3: `completedAt` on status transition

`updateSubTask` assigns `subTaskFound.status = status || subTaskFound.status`
*before* evaluating
`if (status === 'completed' && subTaskFound.status !== 'completed')`, so by
the time the guard runs the subtask's status is already `'completed'`
whenever the first conjunct holds: the guard can never fire and
`completedAt` is never written, contradicting both the spec and the guard's
own evident purpose. -/

/-- C3: the `completedAt` guard of `updateSubTask` is dead code — for every
request body, update time and stored subtask (in particular a non-completed
subtask updated with status `'completed'`), the applied update leaves
`completedAt` exactly as it was. -/
theorem completedAt_never_set (body : UpdateSubTaskBody) (now : Nat) (st : SubTask) :
    (applySubTaskUpdate body now st).completedAt = st.completedAt := by
  unfold applySubTaskUpdate
  by_cases hb : body.status = some "completed"
  · rw [if_neg]
    intro hand
    apply hand.2
    show orFalsy body.status st.status = "completed"
    rw [hb]
    rfl
  · rw [if_neg]
    exact fun hand => hb hand.1

/-! ## C7: deleting an absent subtask -/

/-- When no bucket contains the identifier every per-bucket filter keeps its
length and the removal loop reports `none`. -/
theorem removeFromDays_eq_none (days : List DayBucket) (sid : Nat)
    (h : ∀ day ∈ days, ∀ st ∈ day.subTasks, st.id ≠ sid) :
    removeFromDays days sid = none := by
  induction days with
  | nil => rfl
  | cons day rest ih =>
    have hfilter : day.subTasks.filter (fun st => st.id != sid) = day.subTasks :=
      List.filter_eq_self.mpr (fun st hst => by
        simpa [bne_iff_ne] using h day (List.mem_cons_self _ _) st hst)
    have hrest : removeFromDays rest sid = none :=
      ih (fun d hd => h d (List.mem_cons_of_mem _ hd))
    simp [removeFromDays, hfilter, hrest]

/-- C7: a `deleteSubtask` call naming a subtask id held by no bucket of the
task answers `NotFound` ('Subtask not found'); the model returns no `ok`
document, so nothing is recomputed or persisted and the stored task is
unchanged. -/
theorem delete_missing_subtask_not_found (u : ReqUser) (task : Task) (sid : Nat)
    (h : ∀ day ∈ task.days, ∀ st ∈ day.subTasks, st.id ≠ sid) :
    deleteSubtask (some u) (some task) sid = ApiResult.notFound "Subtask not found" := by
  have hnone := removeFromDays_eq_none task.days sid h
  simp [deleteSubtask, hnone]

/-- A task holding a single subtask with id 1. -/
def exC7 : Task :=
  { baseTask with days := [⟨⟨0, 0⟩, [⟨1, "a", "pending", 0, "", none, none⟩]⟩] }

/-- Witness for C7: deleting id 5 from a task that only holds id 1. -/
theorem delete_missing_subtask_not_found_witness :
    deleteSubtask (some ⟨1, "staff", 3⟩) (some exC7) 5 =
      ApiResult.notFound "Subtask not found" :=
  delete_missing_subtask_not_found ⟨1, "staff", 3⟩ exC7 5 (by decide)

/-! ## C5: default status of newly created subtasks

`createTask` seeding and `addSubTask` default a missing status to
`'pending'`, but `addSubTaskDay` — the handler actually wired to the
day-bucket storage — defaults it to `'in-progress'`
(taskController.js:266). -/

/-- The `addSubTaskDay` body of the C5 example: no `status` supplied. -/
def exC5Body : AddSubTaskDayBody :=
  { date := some ⟨0, 3600⟩, description := some "work",
    status := none, hoursSpent := none, remarks := none }

/-- C5 counterexample: an `addSubTaskDay` call that supplies no status
creates a subtask whose status is `'in-progress'`, not `'pending'`. -/
theorem subtask_default_status_counterexample :
    (match addSubTaskDay ⟨2, "staff", 1⟩ (some baseTask) exC5Body 7 with
      | ApiResult.ok t => (allSubTasksOf t).map (fun st => st.status)
      | _ => []) = ["in-progress"]
    ∧ "in-progress" ≠ "pending" :=
  ⟨rfl, by decide⟩

/-- C5 as amended: a seed of `createTask` and a status-less `addSubTask`
body yield status `'pending'`, but a status-less `addSubTaskDay` body
yields status `'in-progress'`. -/
theorem subtask_default_status_amended :
    (∀ s : SeedRecord, (seedToFlat s).status = "pending")
    ∧ (∀ (body : AddSubTaskBody) (now : Nat), body.status = none →
        (newFlatSubTask body now).status = "pending")
    ∧ (∀ (body : AddSubTaskDayBody) (desc : String) (nid : Nat), body.status = none →
        (newDaySubTask body desc nid).status = "in-progress") := by
  refine ⟨fun s => rfl, fun body now h => ?_, fun body desc nid h => ?_⟩
  · simp [newFlatSubTask, orFalsy, h]
  · simp [newDaySubTask, orFalsy, h]

/-! ## C6: where `createTask` puts its seeds

The seeds of `subTaskDetails` are pushed onto the legacy flat
`task.subTasks` array (taskController.js:99), not into `task.days`; the
Progress Calculator and the reports read only `task.days`, so they never
see a seed. -/

/-- A creation body carrying one seed record. -/
def exC6Body : CreateTaskBody :=
  { title := "t", description := "", assignedTo := 2, startDate := ⟨0, 0⟩,
    endDate := ⟨3, 0⟩, priority := none,
    subTaskDetails := [⟨⟨1, 0⟩, "seed work"⟩] }

/-- C6 counterexample: creating a task with one seed leaves `days` empty —
the seed lands in the flat `subTasks` list, the day-bucket flattening is
empty, and the Progress Calculator consequently computes progress 0. -/
theorem seeds_not_bucketed_counterexample :
    (createTaskDoc 1 4 exC6Body).days = []
    ∧ (createTaskDoc 1 4 exC6Body).subTasks.length = 1
    ∧ allSubTasksOf (createTaskDoc 1 4 exC6Body) = []
    ∧ (updateTaskProgressAndStatus (createTaskDoc 1 4 exC6Body)).progress = 0 :=
  ⟨rfl, rfl, rfl, rfl⟩

/-- C6 as amended: every seed becomes exactly one entry of the task's flat
`subTasks` list, in order; no day bucket is created, so the day-bucket
flattening used by the Progress Calculator and the reports contains no
seed. -/
theorem seeds_kept_flat_amended : ∀ (creator comp : Nat) (body : CreateTaskBody),
    (createTaskDoc creator comp body).subTasks = body.subTaskDetails.map seedToFlat
    ∧ (createTaskDoc creator comp body).days = []
    ∧ allSubTasksOf (createTaskDoc creator comp body) = [] := by
  intro creator comp body
  unfold createTaskDoc
  by_cases h : body.subTaskDetails.length > 0
  · rw [if_pos h]
    exact ⟨by simp, rfl, rfl⟩
  · rw [if_neg h]
    have hnil : body.subTaskDetails = [] := by
      cases hd : body.subTaskDetails with
      | nil => rfl
      | cons a l => rw [hd] at h; simp at h
    exact ⟨by simp [hnil], rfl, rfl⟩

/-! ## C8: caller-supplied status on task update

`updateTask` destructures `status` from the request body and passes it
verbatim into `findByIdAndUpdate` for every permitted caller — there is no
role gate and no override mode around it (taskController.js:123,159). -/

/-- A task whose derived status is `'in-progress'`. -/
def exC8Task : Task := { baseTask with assignedTo := 2, status := "in-progress", progress := 50 }

/-- An update body carrying only a client-sent `status`. -/
def exC8Body : UpdateTaskBody :=
  { title := none, description := none, assignedTo := none, startDate := none,
    endDate := none, priority := none, status := some "completed" }

/-- C8 counterexample: a manager (non-admin) sending `status: 'completed'`
overwrites the task's derived status with the client value. -/
theorem update_status_override_counterexample :
    updateTask (fun _ => none) ⟨3, "manager", 4⟩ (some exC8Task) exC8Body 99 =
      ApiResult.ok { exC8Task with status := "completed", updatedAt := 99 } := rfl

/-- C8 as amended: whenever `updateTask` succeeds and the body carries a
status value, the stored task's status afterwards is exactly the
caller-supplied value, for every caller role. -/
theorem update_status_applied (findUser : Nat → Option UserDoc) (user : ReqUser)
    (task0 : Option Task) (body : UpdateTaskBody) (s : String) (now : Nat) (t' : Task)
    (hs : body.status = some s)
    (hok : updateTask findUser user task0 body now = ApiResult.ok t') :
    t'.status = s := by
  cases task0 with
  | none => simp [updateTask] at hok
  | some task =>
    simp only [updateTask] at hok
    by_cases hperm : user.role = "staff" ∧ task.assignedTo ≠ user.id
    · rw [if_pos hperm] at hok
      exact ApiResult.noConfusion hok
    · rw [if_neg hperm] at hok
      cases hba : body.assignedTo with
      | none =>
        simp only [hba] at hok
        injection hok with h
        rw [← h]
        simp [applyTaskUpdate, hs]
      | some uid =>
        simp only [hba] at hok
        cases hfu : findUser uid with
        | none =>
          simp only [hfu] at hok
          exact ApiResult.noConfusion hok
        | some u =>
          simp only [hfu] at hok
          by_cases hadm : user.role = "admin"
          · rw [if_pos hadm] at hok
            cases hcomp : u.company with
            | none =>
              simp only [hcomp] at hok
              exact ApiResult.noConfusion hok
            | some c =>
              simp only [hcomp] at hok
              injection hok with h
              rw [← h]
              simp [applyTaskUpdate, hs]
          · rw [if_neg hadm] at hok
            injection hok with h
            rw [← h]
            simp [applyTaskUpdate, hs]

/-- Witness for C8 as amended, at the counterexample's input. -/
theorem update_status_applied_witness :
    ({ exC8Task with status := "completed", updatedAt := 99 } : Task).status = "completed" :=
  update_status_applied (fun _ => none) ⟨3, "manager", 4⟩ (some exC8Task) exC8Body
    "completed" 99 _ rfl rfl

/-! ## C9: staff-ownership enforcement on subtask mutations

Of the three subtask mutations only `updateSubTask` checks staff ownership
(taskController.js:564); `addSubTaskDay` and `deleteSubtask` have no
role/ownership check at all and never answer 403. -/

/-- The `addSubTaskDay` body of the C9 example. -/
def exC9Body : AddSubTaskDayBody :=
  { date := some ⟨0, 0⟩, description := some "x",
    status := none, hoursSpent := none, remarks := none }

/-- C9 counterexample: a staff caller (id 5) mutating a task assigned to
user 1 through `addSubTaskDay` is not rejected — the call succeeds and the
pushed subtask is persisted; `deleteSubtask` likewise does not answer 403
for that caller. -/
theorem staff_scope_counterexample :
    addSubTaskDay ⟨5, "staff", 3⟩ (some baseTask) exC9Body 1 ≠ ApiResult.forbidden
    ∧ addSubTaskDay ⟨5, "staff", 3⟩ (some baseTask) exC9Body 1 =
        ApiResult.ok { baseTask with
          days := [⟨⟨0, 0⟩, [⟨1, "x", "in-progress", 0, "", none, none⟩]⟩],
          progress := 0, status := "pending" }
    ∧ deleteSubtask (some ⟨5, "staff", 3⟩) (some exC7) 1 ≠ ApiResult.forbidden :=
  ⟨by decide, rfl, by decide⟩

/-- C9 as amended: a staff caller on a task not assigned to them is
rejected with 403 by `updateSubTask` before any mutation, but
`addSubTaskDay` and `deleteSubtask` enforce no such rule — they can never
answer 403 at all. -/
theorem staff_scope_amended :
    (∀ (u : ReqUser) (task : Task) (sid : Nat) (body : UpdateSubTaskBody) (now : Nat),
        u.role = "staff" → task.assignedTo ≠ u.id →
        updateSubTask (some u) (some task) sid body now = ApiResult.forbidden)
    ∧ (∀ (u : ReqUser) (t0 : Option Task) (body : AddSubTaskDayBody) (nid : Nat),
        addSubTaskDay u t0 body nid ≠ ApiResult.forbidden)
    ∧ (∀ (u0 : Option ReqUser) (t0 : Option Task) (sid : Nat),
        deleteSubtask u0 t0 sid ≠ ApiResult.forbidden) := by
  refine ⟨?_, ?_, ?_⟩
  · intro u task sid body now hrole hown
    simp [updateSubTask, hrole, hown]
  · intro u t0 body nid h
    unfold addSubTaskDay at h
    split at h
    · exact ApiResult.noConfusion h
    · split at h
      · exact ApiResult.noConfusion h
      · split at h
        · exact ApiResult.noConfusion h
        · exact ApiResult.noConfusion h
  · intro u0 t0 sid h
    unfold deleteSubtask at h
    split at h
    · exact ApiResult.noConfusion h
    · split at h
      · exact ApiResult.noConfusion h
      · split at h
        · exact ApiResult.noConfusion h
        · exact ApiResult.noConfusion h

/-! ## C10: progress monotonicity under completion -/

/-- `modifyAt` preserves list length. -/
theorem modifyAt_length {α : Type} (l : List α) (i : Nat) (f : α → α) :
    (modifyAt l i f).length = l.length := by
  induction l generalizing i with
  | nil => rfl
  | cons a as ih =>
    cases i with
    | zero => simp [modifyAt]
    | succ n => simp [modifyAt, ih]

/-- Completing one not-yet-completed subtask raises the completed count of
its list by exactly one. -/
theorem count_complete_modifyAt (l : List SubTask) (j : Nat)
    (hj : j < l.length) (hst : (l.getD j default).status ≠ "completed") :
    ((modifyAt l j (fun st => { st with status := "completed" })).filter
        (fun st => st.status == "completed")).length
      = ((l.filter (fun st => st.status == "completed")).length) + 1 := by
  induction l generalizing j with
  | nil => simp at hj
  | cons a as ih =>
    cases j with
    | zero =>
      have hpa : (a.status == "completed") = false := by
        simpa [beq_eq_false_iff_ne] using hst
      simp [modifyAt, List.filter_cons, hpa]
    | succ n =>
      have hj' : n < as.length := by simpa using hj
      have hst' : (as.getD n default).status ≠ "completed" := by simpa using hst
      by_cases hpa : (a.status == "completed") = true
      · simp [modifyAt, List.filter_cons, hpa, ih n hj' hst']
      · simp at hpa
        simp [modifyAt, List.filter_cons, hpa, ih n hj' hst']

/-- Over the whole flattened bucket tree: completing one not-yet-completed
subtask raises the completed count by one and keeps the total count. -/
theorem count_complete_days (days : List DayBucket) (i j : Nat)
    (hi : i < days.length)
    (hj : j < ((days.getD i default).subTasks).length)
    (hst : ((days.getD i default).subTasks.getD j default).status ≠ "completed") :
    (((completeDays days i j).flatMap (fun day => day.subTasks)).filter
        (fun st => st.status == "completed")).length
      = ((days.flatMap (fun day => day.subTasks)).filter
          (fun st => st.status == "completed")).length + 1
    ∧ ((completeDays days i j).flatMap (fun day => day.subTasks)).length
      = (days.flatMap (fun day => day.subTasks)).length := by
  induction days generalizing i with
  | nil => simp at hi
  | cons d ds ih =>
    cases i with
    | zero =>
      have hj0 : j < d.subTasks.length := by simpa using hj
      have hst0 : (d.subTasks.getD j default).status ≠ "completed" := by simpa using hst
      constructor
      · simp [completeDays, modifyAt, List.filter_append,
          count_complete_modifyAt d.subTasks j hj0 hst0]
        omega
      · simp [completeDays, modifyAt, modifyAt_length]
    | succ n =>
      have hi' : n < ds.length := by simpa using hi
      have hj' : n < ds.length := hi'
      have hjn : j < ((ds.getD n default).subTasks).length := by simpa using hj
      have hstn : ((ds.getD n default).subTasks.getD j default).status ≠ "completed" := by
        simpa using hst
      obtain ⟨ihc, ihl⟩ := ih n hi' hjn hstn
      constructor
      · simp only [completeDays, modifyAt] at ihc ⊢
        simp [List.filter_append, ihc]
        omega
      · simp only [completeDays, modifyAt] at ihl ⊢
        simp [ihl]

/-- `jsRound100` is monotone in the completed count. -/
theorem jsRound100_mono (c n : Nat) : jsRound100 c n ≤ jsRound100 (c + 1) n := by
  unfold jsRound100
  exact Nat.div_le_div_right (by omega)

/-- C10: with the day buckets, the subtask list length and every other
subtask unchanged, switching one subtask's status from a non-`'completed'`
value to `'completed'` never decreases the progress computed by
`updateTaskProgressAndStatus`. -/
theorem progress_monotone (task : Task) (i j : Nat)
    (hi : i < task.days.length)
    (hj : j < ((task.days.getD i default).subTasks).length)
    (hst : ((task.days.getD i default).subTasks.getD j default).status ≠ "completed") :
    (updateTaskProgressAndStatus task).progress ≤
      (updateTaskProgressAndStatus (completeSubAt task i j)).progress := by
  obtain ⟨hcnt, hlen⟩ := count_complete_days task.days i j hi hj hst
  have hflat : allSubTasksOf (completeSubAt task i j)
      = (completeDays task.days i j).flatMap (fun day => day.subTasks) := rfl
  have hflat0 : allSubTasksOf task = task.days.flatMap (fun day => day.subTasks) := rfl
  have hn : ¬ (allSubTasksOf task).length = 0 := by
    have hcle : (((completeDays task.days i j).flatMap (fun day => day.subTasks)).filter
        (fun st => st.status == "completed")).length
        ≤ ((completeDays task.days i j).flatMap (fun day => day.subTasks)).length :=
      List.length_filter_le _ _
    rw [hcnt, hlen] at hcle
    rw [hflat0]
    omega
  have hn' : ¬ (allSubTasksOf (completeSubAt task i j)).length = 0 := by
    rw [hflat, hlen, ← hflat0]
    exact hn
  rw [updateTPS_progress task hn, updateTPS_progress _ hn']
  rw [hflat, hflat0, hcnt, hlen]
  exact jsRound100_mono _ _

/-- A task holding a single pending subtask. -/
def exC10 : Task :=
  { baseTask with days := [⟨⟨0, 0⟩, [⟨1, "a", "pending", 0, "", none, none⟩]⟩] }

/-- Witness for C10: completing the only (pending) subtask of a concrete
task does not decrease its progress. -/
theorem progress_monotone_witness :
    (updateTaskProgressAndStatus exC10).progress ≤
      (updateTaskProgressAndStatus (completeSubAt exC10 0 0)).progress :=
  progress_monotone exC10 0 0 (by decide) (by decide) (by decide)

/-! ## C2: report window completeness -/

/-- On midnight-normalized dates the JS `>=` comparison is day order. -/
theorem dtLe_norm (s d : Int) : dtLe ⟨s, 0⟩ ⟨d, 0⟩ = true ↔ s ≤ d := by
  simp [dtLe]
  omega

/-- Against an end pushed to 23:59:59.999 the JS `<=` is day order. -/
theorem dtLe_end_of_day (d e : Int) : dtLe ⟨d, 0⟩ ⟨e, 86399999⟩ = true ↔ d ≤ e := by
  simp [dtLe]
  omega

/-- The window guard of `calculateTaskStats` in day arithmetic. -/
theorem window_cond (s e d : Int) :
    (dtLe ⟨s, 0⟩ ⟨d, 0⟩ && dtLe ⟨d, 0⟩ ⟨e, 86399999⟩) = true ↔ (s ≤ d ∧ d ≤ e) := by
  rw [Bool.and_eq_true, dtLe_norm, dtLe_end_of_day]

/-- Every report entry carries the normalized date it was built for. -/
theorem mkDayEntry_date (d : Int) (f : Option DayBucket) :
    (mkDayEntry d f).date = ⟨d, 0⟩ := by
  cases f <;> rfl

/-- Counting the report entries built over `range dim` that carry date `d`:
exactly one iff `d` is a day of the month inside the task's range. -/
theorem count_entries (task : Task) (mf : Int) (dim : Nat) (d : Int) :
    (((List.range dim).filterMap (fun (i : Nat) =>
        if dtLe (setHours0 task.startDate) ⟨mf + (i : Int), 0⟩
            && dtLe ⟨mf + (i : Int), 0⟩ (setHoursEnd task.endDate) then
          some (mkDayEntry (mf + (i : Int)) (lookupDayByKey task.days (mf + (i : Int))))
        else none)).filter (fun e => e.date == (⟨d, 0⟩ : DateTime))).length
      = if (mf ≤ d ∧ d < mf + dim)
            ∧ task.startDate.day ≤ d ∧ d ≤ task.endDate.day then 1 else 0 := by
  induction dim with
  | zero =>
    simp only [List.range_zero, List.filterMap_nil, List.filter_nil, List.length_nil]
    rw [if_neg (by omega)]
  | succ n ih =>
    rw [List.range_succ, List.filterMap_append, List.filter_append, List.length_append, ih]
    have hsing : (((List.filterMap (fun (i : Nat) =>
          if dtLe (setHours0 task.startDate) ⟨mf + (i : Int), 0⟩
              && dtLe ⟨mf + (i : Int), 0⟩ (setHoursEnd task.endDate) then
            some (mkDayEntry (mf + (i : Int)) (lookupDayByKey task.days (mf + (i : Int))))
          else none) [n]).filter (fun e => e.date == (⟨d, 0⟩ : DateTime))).length)
        = if (task.startDate.day ≤ mf + n ∧ mf + n ≤ task.endDate.day) ∧ mf + n = d
          then 1 else 0 := by
      by_cases hc : (dtLe (setHours0 task.startDate) ⟨mf + (n : Int), 0⟩
          && dtLe ⟨mf + (n : Int), 0⟩ (setHoursEnd task.endDate)) = true
      · have hfm : List.filterMap (fun (i : Nat) =>
            if dtLe (setHours0 task.startDate) ⟨mf + (i : Int), 0⟩
                && dtLe ⟨mf + (i : Int), 0⟩ (setHoursEnd task.endDate) then
              some (mkDayEntry (mf + (i : Int)) (lookupDayByKey task.days (mf + (i : Int))))
            else none) [n]
            = [mkDayEntry (mf + (n : Int))
                (lookupDayByKey task.days (mf + (n : Int)))] := by
          simp only [List.filterMap_cons, List.filterMap_nil]
          rw [if_pos hc]
        rw [hfm, List.filter_singleton]
        have hcd : task.startDate.day ≤ mf + n ∧ mf + n ≤ task.endDate.day := by
          have := (window_cond task.startDate.day task.endDate.day (mf + n)).mp
          exact this (by simpa [setHours0, setHoursEnd] using hc)
        by_cases hd : mf + (n : Int) = d
        · have hp : ((mkDayEntry (mf + (n : Int))
              (lookupDayByKey task.days (mf + (n : Int)))).date
                == (⟨d, 0⟩ : DateTime)) = true := by
            rw [mkDayEntry_date]
            exact beq_iff_eq.mpr (by rw [hd])
          rw [if_pos ⟨hcd, hd⟩, hp]
          rfl
        · have hp : ((mkDayEntry (mf + (n : Int))
              (lookupDayByKey task.days (mf + (n : Int)))).date
                == (⟨d, 0⟩ : DateTime)) = false := by
            rw [mkDayEntry_date]
            simp only [beq_eq_false_iff_ne, ne_eq, DateTime.mk.injEq, and_true]
            exact hd
          rw [if_neg (fun hand => hd hand.2), hp]
          rfl
      · have hfm : List.filterMap (fun (i : Nat) =>
            if dtLe (setHours0 task.startDate) ⟨mf + (i : Int), 0⟩
                && dtLe ⟨mf + (i : Int), 0⟩ (setHoursEnd task.endDate) then
              some (mkDayEntry (mf + (i : Int)) (lookupDayByKey task.days (mf + (i : Int))))
            else none) [n] = [] := by
          simp only [List.filterMap_cons, List.filterMap_nil]
          rw [if_neg hc]
        rw [hfm, List.filter_nil]
        have hcd : ¬ (task.startDate.day ≤ mf + n ∧ mf + n ≤ task.endDate.day) := by
          intro hand
          exact hc (by simpa [setHours0, setHoursEnd] using
            (window_cond task.startDate.day task.endDate.day (mf + n)).mpr hand)
        rw [if_neg (fun hand => hcd hand.1)]
        rfl
    rw [hsing]
    split_ifs <;> omega

/-- C2: every task's report day tree holds exactly one entry for every
calendar day of the requested month inside the task's own
`[startDate, endDate]`; a day with no recorded bucket appears with an empty
subtask list, zero hours, zero counts and status `'pending'`. -/
theorem report_window_complete (monthFirst : Int) (daysInMonth : Nat) (task : Task) :
    (∀ d : Int,
      (((calculateTaskStats monthFirst daysInMonth task).daysWithStatus).filter
          (fun e => e.date == (⟨d, 0⟩ : DateTime))).length
        = if (monthFirst ≤ d ∧ d < monthFirst + daysInMonth)
              ∧ task.startDate.day ≤ d ∧ d ≤ task.endDate.day then 1 else 0)
    ∧ (∀ e ∈ (calculateTaskStats monthFirst daysInMonth task).daysWithStatus,
        (∀ day ∈ task.days, day.date.day ≠ e.date.day) →
          e.subTasks = [] ∧ e.totalHours = 0 ∧ e.completedSubtasks = 0
            ∧ e.totalSubtasks = 0 ∧ e.status = "pending") := by
  have hds : (calculateTaskStats monthFirst daysInMonth task).daysWithStatus
      = (List.range daysInMonth).filterMap (fun (i : Nat) =>
          if dtLe (setHours0 task.startDate) ⟨monthFirst + (i : Int), 0⟩
              && dtLe ⟨monthFirst + (i : Int), 0⟩ (setHoursEnd task.endDate) then
            some (mkDayEntry (monthFirst + (i : Int))
              (lookupDayByKey task.days (monthFirst + (i : Int))))
          else none) := rfl
  constructor
  · intro d
    rw [hds, count_entries]
  · intro e he hnb
    rw [hds] at he
    obtain ⟨i, _, hgi⟩ := List.mem_filterMap.mp he
    by_cases hc : (dtLe (setHours0 task.startDate) ⟨monthFirst + (i : Int), 0⟩
        && dtLe ⟨monthFirst + (i : Int), 0⟩ (setHoursEnd task.endDate)) = true
    · rw [if_pos hc] at hgi
      injection hgi with hgi
      have hlook : lookupDayByKey task.days (monthFirst + i) = none := by
        apply List.find?_eq_none.mpr
        intro day hday'
        have hmem : day ∈ task.days := List.mem_reverse.mp hday'
        have hne : day.date.day ≠ e.date.day := hnb day hmem
        simp only [beq_iff_eq]
        intro habs
        apply hne
        rw [← hgi, mkDayEntry_date]
        exact habs
      rw [← hgi, hlook]
      exact ⟨rfl, rfl, rfl, rfl, rfl⟩
    · rw [if_neg hc] at hgi
      exact Option.noConfusion hgi

end TaskApp
